import Mathlib

/-!
# luacxx: the stack algorithms of `algorithm.hpp` and the bridge of `Lua.cpp`

A shallow embedding of the host/guest bridge.  The guest VM is an external
component: its stack primitives (`lua_gettop`, `lua_settop`, `lua_pop`,
`lua_settable`, `lua_gettable`, `lua_replace`, `lua_tostring`, `lua_call`) are
embedded after the Lua reference manual, with raw table access.  The functions
of `algorithm.hpp` and `Lua.cpp` are translated statement by statement on top
of them, with the VM state passed explicitly.
-/

set_option autoImplicit false
set_option linter.dupNamespace false

/-! ## Guest values -/

/-- Modelled from the spec: the kinds of guest value (`lua::type`, declared
in `stack.hpp`, which is not part of the sources at hand): the closed tag set
of the VM, `none` being the kind of a stack position that holds no slot. -/
inductive LuaType where
  | none
  | nil
  | boolean
  | lightuserdata
  | number
  | string
  | table
  | function
  | userdata
  | thread
  deriving DecidableEq, Repr

/-- Modelled from the spec: the printable name of a kind
(`lua::type_info::name`, declared in `stack.hpp`, which is not part of the
sources at hand), with the VM's own names for the kinds. -/
def LuaType.name : LuaType → String
  | .none => "no value"
  | .nil => "nil"
  | .boolean => "boolean"
  | .lightuserdata => "userdata"
  | .number => "number"
  | .string => "string"
  | .table => "table"
  | .function => "function"
  | .userdata => "userdata"
  | .thread => "thread"

/-- A guest value.  Numbers are the integers; tables and functions are
references into the VM's heap; a light userdata is a host pointer (`0` is the
null pointer). -/
inductive Value where
  | nil
  | boolean (b : Bool)
  | number (n : Int)
  | string (s : String)
  | table (ref : Nat)
  | function (ref : Nat)
  | lightuserdata (ptr : Nat)
  deriving DecidableEq, Repr

/-- The kind of a guest value (`lua_type` on a live slot). -/
def Value.type : Value → LuaType
  | .nil => .nil
  | .boolean _ => .boolean
  | .number _ => .number
  | .string _ => .string
  | .table _ => .table
  | .function _ => .function
  | .lightuserdata _ => .lightuserdata

/-! ## Guest tables (raw access) -/

/-- A guest table: its non-nil entries. -/
abbrev Table := List (Value × Value)

/-- Raw read of `t[k]`: `nil` when the key is absent. -/
def Table.rawget : Table → Value → Value
  | [], _ => Value.nil
  | (k', v) :: rest, k => if k' = k then v else Table.rawget rest k

/-- Removal of a key. -/
def Table.erase : Table → Value → Table
  | [], _ => []
  | (k', v) :: rest, k => if k' = k then Table.erase rest k else (k', v) :: Table.erase rest k

/-- Raw write of `t[k] = v`: storing `nil` removes the entry. -/
def Table.rawset (t : Table) (k v : Value) : Table :=
  if v = Value.nil then Table.erase t k else (k, v) :: Table.erase t k

/-- Search for the border of a table from `n` upwards, at most `fuel` steps. -/
def Table.border : Nat → Table → Nat → Nat
  | 0, _, n => n
  | fuel + 1, t, n =>
    if Table.rawget t (Value.number (Int.ofNat (n + 1))) = Value.nil then n
    else Table.border fuel t (n + 1)

/-- The guest length operator on a table: the first `n` with `t[n+1] = nil`. -/
def Table.len (t : Table) : Nat := Table.border (List.length t) t 0

namespace lua

/-! ## VM state and stack primitives -/

/-- The heap of guest tables, by reference. -/
abbrev Heap := Nat → Table

/-- The guest VM as the algorithms see it (`lua::state`): the operand stack,
bottom first, and the heap of tables. -/
structure state where
  stack : List Value
  heap : Heap

/-- The behaviour of the guest functions, by reference: from the arguments and
the heap to the returned values, or to a raised error message, and the heap
left behind. -/
abbrev Functions := Nat → List Value → Heap → Except String (List Value) × Heap

/-- The result of running a bridge operation: it returns a value or throws
`lua::error` with a message; both leave a VM state behind. -/
inductive Outcome (α : Type) where
  | ok (a : α) (s : state)
  | thrown (what : String) (s : state)

/-- The state an outcome leaves behind. -/
def Outcome.post {α : Type} : Outcome α → state
  | .ok _ s => s
  | .thrown _ s => s

/-- `lua_gettop`: the height of the stack. -/
def lua_gettop (s : state) : Int := Int.ofNat s.stack.length

/-- Resolution of a stack index to a slot: positive indices count from the
bottom, negative ones from the top. -/
def slot (s : state) (idx : Int) : Option Value :=
  if 0 < idx then s.stack.get? (idx.toNat - 1)
  else if idx < 0 ∧ -idx ≤ lua_gettop s then s.stack.get? (s.stack.length - (-idx).toNat)
  else Option.none

/-- `lua_settop`: truncates the stack to `n` slots, or fills it with `nil` up
to `n`; a negative `n` is relative to the top. -/
def lua_settop (s : state) (n : Int) : state :=
  let m : Nat := if 0 ≤ n then n.toNat else (lua_gettop s + n + 1).toNat
  { s with stack := List.take m s.stack ++ List.replicate (m - s.stack.length) Value.nil }

/-- `lua_pop(L, n)` is `lua_settop(L, -n - 1)`. -/
def lua_pop (s : state) (n : Int) : state := lua_settop s (-n - 1)

/-- Modelled from the spec: a stack view (`lua::index` of `stack.hpp`, which
is not part of the sources at hand): a position in the stack of the state it
is used with, absolute when a push answers it. -/
structure index where
  pos : Int
  deriving DecidableEq, Repr

/-- Modelled from the spec: `lua::index::type()`, the kind of the slot the
index points at. -/
def index.type (s : state) (i : index) : LuaType :=
  match slot s i.pos with
  | some v => v.type
  | Option.none => LuaType.none

/-- The message `assert_type` builds in its string stream. -/
def assert_type_message (category : String) (expected : LuaType) (pos : Int)
    (actual : LuaType) : String :=
  category ++ ": " ++ "Lua stack value at index " ++ toString pos ++ " must be a "
    ++ expected.name ++ " but a " ++ actual.name ++ " was given instead."

/-- `lua::assert_type`: returns when the slot has the expected kind, throws
the error with the built message otherwise. -/
def assert_type (s : state) (category : String) (expected : LuaType) (given : index) :
    Except String Unit :=
  if index.type s given = expected then
    Except.ok ()
  else
    Except.error (assert_type_message category expected given.pos (index.type s given))

/-! ## The collaborators of `stack.hpp` -/

/-- Modelled from the spec: something the algorithms can push, a stack view,
a reference handle or a global/table proxy.  It is re-resolved against the
live state at every push and resolves to one guest value. -/
abbrev Source := state → Value

/-- Modelled from the spec: `lua::push` of `stack.hpp`, which is not part of
the sources at hand.  It writes the guest representation of one value onto the
top of the stack, using one slot, and answers the stack view of that slot at
its absolute position. -/
def push (s : state) (v : Value) : state × index :=
  ({ s with stack := s.stack ++ [v] }, { pos := Int.ofNat (s.stack.length + 1) })

/-- Modelled from the spec: `lua::push(state, args...)` of `stack.hpp`, which
pushes the marshaled arguments in order. -/
def push_all (s : state) (args : List Value) : state :=
  { s with stack := s.stack ++ args }

/-- Modelled from the spec: `lua::get<T>` of `stack.hpp`, which reads the slot
at a position and converts it with the conversion `conv` registered for the
host type; a position without a slot reads as `nil`. -/
def get {α : Type} (conv : Value → Except String α) (s : state) (idx : Int) :
    Except String α :=
  conv ((slot s idx).getD Value.nil)

/-- `lua_settable(L, idx)`: `t[k] = v` for the table at `idx`, the key below
the top and the value at the top; pops both.  The VM raises an error for a
`nil` key and for a target that is not a table. -/
def lua_settable (s : state) (idx : Int) : Except String state :=
  match slot s idx, slot s (-2), slot s (-1) with
  | some (Value.table r), some k, some v =>
    if k = Value.nil then Except.error "table index is nil"
    else Except.ok
      { stack := List.take (s.stack.length - 2) s.stack,
        heap := fun r' => if r' = r then Table.rawset (s.heap r) k v else s.heap r' }
  | some t, _, _ => Except.error ("attempt to index a " ++ t.type.name ++ " value")
  | Option.none, _, _ => Except.error "attempt to index a no value value"

/-- `lua_gettable(L, idx)`: replaces the key at the top by `t[k]` for the
table at `idx`.  The VM raises an error for a target that is not a table. -/
def lua_gettable (s : state) (idx : Int) : Except String state :=
  match slot s idx, slot s (-1) with
  | some (Value.table r), some k =>
    Except.ok { s with stack := List.take (s.stack.length - 1) s.stack
                                  ++ [Table.rawget (s.heap r) k] }
  | some t, _ => Except.error ("attempt to index a " ++ t.type.name ++ " value")
  | Option.none, _ => Except.error "attempt to index a no value value"

/-- `lua_replace(L, idx)`: moves the top into the slot at `idx` and pops it. -/
def lua_replace (s : state) (idx : Int) : state :=
  match slot s (-1) with
  | some v =>
    { s with stack := List.set (List.take (s.stack.length - 1) s.stack) (idx.toNat - 1) v }
  | Option.none => s

/-- Modelled from the spec: `lua::invoke` of the library, declared in
`algorithm.hpp` and defined elsewhere.  It executes the callable at the given
position on the arguments above it and leaves the stack with exactly the
returned values in their place; a guest error is re-raised as a host failure
carrying the guest message. -/
def invoke (fns : Functions) (s : state) (callable : index) : Outcome Unit :=
  match slot s callable.pos with
  | some (Value.function f) =>
    let below := List.take (callable.pos.toNat - 1) s.stack
    let args := List.drop callable.pos.toNat s.stack
    match fns f args s.heap with
    | (Except.ok results, h) => Outcome.ok () { stack := below ++ results, heap := h }
    | (Except.error msg, h) => Outcome.thrown msg { stack := below, heap := h }
  | some v => Outcome.thrown ("attempt to call a " ++ v.type.name ++ " value") s
  | Option.none => Outcome.thrown "attempt to call a no value value" s

/-- Modelled from the spec: `lua::size(const lua::index&)`, declared in
`algorithm.hpp` and defined elsewhere: the guest length of the value at the
index, which fails when that value has no length. -/
def size_index (s : state) (i : index) : Except String Int :=
  match slot s i.pos with
  | some (Value.table r) => Except.ok (Int.ofNat (Table.len (s.heap r)))
  | some (Value.string str) => Except.ok (Int.ofNat str.length)
  | some v => Except.error ("attempt to get length of a " ++ v.type.name ++ " value")
  | Option.none => Except.error "attempt to get length of a no value value"

/-- Modelled from the spec: `lua::table::length`, declared in `algorithm.hpp`
and defined elsewhere: the guest length of the table at the index (`0` when
there is no table there). -/
def table.length (s : state) (i : index) : Int :=
  match slot s i.pos with
  | some (Value.table r) => Int.ofNat (Table.len (s.heap r))
  | _ => 0

/-! ## `algorithm.hpp` -/

/-- `lua::size(T reference)`: pushes the reference, takes the size of the
pushed slot and pops it. -/
def size (reference : Source) (s : state) : Outcome Int :=
  let (s1, pushed) := push s (reference s)
  match size_index s1 pushed with
  | Except.error msg => Outcome.thrown msg s1
  | Except.ok rv => Outcome.ok rv (lua_pop s1 1)

/-- `lua::call<RV>`: the typed call. -/
def call {RV : Type} (conv : Value → Except String RV) (fns : Functions)
    (source : Source) (args : List Value) (s : state) : Outcome RV :=
  let (s1, callable) := push s (source s)
  match assert_type s1 "lua::call" LuaType.function callable with
  | Except.error msg => Outcome.thrown msg s1
  | Except.ok () =>
    let s2 := push_all s1 args
    match invoke fns s2 callable with
    | Outcome.thrown msg s3 => Outcome.thrown msg s3
    | Outcome.ok () s3 =>
      if lua_gettop s3 < callable.pos then
        Outcome.thrown "Lua callable did not return a value" s3
      else
        let s4 := lua_settop s3 callable.pos
        match lua.get conv s4 callable.pos with
        | Except.error msg => Outcome.thrown msg s4
        | Except.ok rv => Outcome.ok rv s4

/-- `lua::call` without a return type: the void call. -/
def call_void (fns : Functions) (source : Source) (args : List Value) (s : state) :
    Outcome Unit :=
  let (s1, callable) := push s (source s)
  match assert_type s1 "lua::call" LuaType.function callable with
  | Except.error msg => Outcome.thrown msg s1
  | Except.ok () =>
    let s2 := push_all s1 args
    match invoke fns s2 callable with
    | Outcome.thrown msg s3 => Outcome.thrown msg s3
    | Outcome.ok () s3 => Outcome.ok () (lua_settop s3 (callable.pos - 1))

/-- `lua::table::insert`: appends a value at key `length + 1`. -/
def table.insert (destination : Source) (value : Value) (s : state) : Outcome Unit :=
  let (s1, tbl) := push s (destination s)
  match assert_type s1 "lua::table::insert" LuaType.table tbl with
  | Except.error msg => Outcome.thrown msg s1
  | Except.ok () =>
    let (s2, _) := push s1 (Value.number (lua.table.length s1 tbl + 1))
    let (s3, _) := push s2 value
    match lua_settable s3 tbl.pos with
    | Except.error msg => Outcome.thrown msg s3
    | Except.ok s4 => Outcome.ok () (lua_pop s4 1)

/-- `lua::table::get<Value>`: reads `source[key]` and converts it. -/
def table.get {α : Type} (conv : Value → Except String α) (source : Source) (key : Value)
    (s : state) : Outcome α :=
  let (s1, tbl) := push s (source s)
  match assert_type s1 "lua::table::get" LuaType.table tbl with
  | Except.error msg => Outcome.thrown msg s1
  | Except.ok () =>
    let (s2, _) := push s1 key
    match lua_gettable s2 tbl.pos with
    | Except.error msg => Outcome.thrown msg s2
    | Except.ok s3 =>
      let s4 := lua_replace s3 tbl.pos
      match lua.get conv s4 (-1) with
      | Except.error msg => Outcome.thrown msg s4
      | Except.ok rv => Outcome.ok rv (lua_pop s4 1)

/-- `lua::table::get` answering a stack view: leaves `source[key]` on the
stack and answers the view of the top, index `-1`. -/
def table.get_index (source : Source) (key : Value) (s : state) : Outcome index :=
  let (s1, tbl) := push s (source s)
  match assert_type s1 "lua::table::get" LuaType.table tbl with
  | Except.error msg => Outcome.thrown msg s1
  | Except.ok () =>
    let (s2, _) := push s1 key
    match lua_gettable s2 tbl.pos with
    | Except.error msg => Outcome.thrown msg s2
    | Except.ok s3 => Outcome.ok { pos := -1 } (lua_replace s3 tbl.pos)

/-- `lua::table::get_type`: the kind of `source[key]`. -/
def table.get_type (source : Source) (key : Value) (s : state) : Outcome LuaType :=
  match lua.table.get_index source key s with
  | Outcome.thrown msg s1 => Outcome.thrown msg s1
  | Outcome.ok value s1 => Outcome.ok (index.type s1 value) (lua_pop s1 1)

/-- `lua::table::set`: writes `source[key] = value`. -/
def table.set (source : Source) (key value : Value) (s : state) : Outcome Unit :=
  let (s1, tbl) := push s (source s)
  match assert_type s1 "lua::table::set" LuaType.table tbl with
  | Except.error msg => Outcome.thrown msg s1
  | Except.ok () =>
    let (s2, _) := push s1 key
    let (s3, _) := push s2 value
    match lua_settable s3 tbl.pos with
    | Except.error msg => Outcome.thrown msg s3
    | Except.ok s4 => Outcome.ok () (lua_pop s4 1)

/-- `lua::setfield`: forwards to `lua::table::set`. -/
def setfield (source : Source) (key value : Value) (s : state) : Outcome Unit :=
  lua.table.set source key value s

end lua

/-! ## `Lua.cpp`: the reflection collaborator -/

/-- A Qt meta-method, as far as the bridge looks at it: its signature, such as
`deleteLater()`, and the number of its parameters. -/
structure QMetaMethod where
  signature : String
  parameterCount : Nat
  deriving DecidableEq, Repr

/-- A Qt meta-object: all the methods of the class, the inherited ones first
(`method(i)` for `i < methodCount()`), and `methodOffset()`, the index of the
first method the class declares itself. -/
structure QMetaObject where
  methods : List QMetaMethod
  methodOffset : Nat
  deriving DecidableEq, Repr

/-- `QMetaObject::methodCount`. -/
def QMetaObject.methodCount (m : QMetaObject) : Nat := m.methods.length

/-- `QMetaObject::method(i).signature()`. -/
def QMetaObject.signature (m : QMetaObject) (i : Nat) : String :=
  match m.methods.get? i with
  | some method => method.signature
  | none => ""

/-- A host object: its valid properties, already in guest representation, and
its meta-object. -/
structure QObject where
  properties : List (String × Value)
  metaObject : QMetaObject
  deriving DecidableEq, Repr

/-- `QObject::property(name)`: the value, or nothing for an invalid variant. -/
def QObject.property (obj : QObject) (name : String) : Option Value :=
  (obj.properties.find? (fun p => p.1 = name)).map (fun p => p.2)

/-- The host objects alive, by pointer. -/
abbrev Objects := Nat → Option QObject

/-- `QString::startsWith` on the Latin-1 text of a signature. -/
def startsWith (sig pre : String) : Bool := pre.toList.isPrefixOf sig.toList

/-! ## `Lua.cpp`: the stack frame of a host callable -/

/-- The host callables the bridge installs in the VM: the three raw callables
of `Lua.cpp`, and a typed two-argument function wrapped by the adapter. -/
inductive HostFunction where
  | callMethod
  | __index
  | __newindex
  | binary (f : Int → Int → Int)

/-- A closure of a host callable with the values bound at its creation. -/
structure Closure where
  fn : HostFunction
  upvalues : List Value

/-- How host code fails: it throws a C string (`throw msg`, where `msg` may be
the null pointer) or a `std::runtime_error`, or it dereferences a null
pointer, where its behaviour is undefined. -/
inductive HostFailure where
  | cstring (msg : Option String)
  | runtime_error (what : String)
  | null_dereference
  deriving DecidableEq, Repr

/-- Modelled from the spec: the `LuaStack` of `LuaStack.hpp`, which is not part
of the sources at hand: the frame a host callable works on, position 1 first,
with the closures created so far (`Value.function n` is the `n`-th). -/
structure LuaStack where
  slots : List Value
  closures : List Closure

/-- `lua_tostring` on a value: the text of a string or of a number, the null
pointer for every other kind. -/
def tostring? : Value → Option String
  | Value.string str => some str
  | Value.number n => some (toString n)
  | _ => none

/-- Modelled from the spec: `LuaStack::cstring(pos)`, the C string at a
position of the frame, null when there is none. -/
def LuaStack.cstring (stack : LuaStack) (pos : Nat) : Option String :=
  match stack.slots.get? (pos - 1) with
  | some v => if pos = 0 then none else tostring? v
  | none => none

/-- Modelled from the spec: `LuaStack::object(pos)`, the host object at a
position of the frame, null when the slot holds no live object pointer. -/
def LuaStack.object (objects : Objects) (stack : LuaStack) (pos : Nat) : Option QObject :=
  match stack.slots.get? (pos - 1) with
  | some (Value.lightuserdata ptr) => if pos = 0 ∨ ptr = 0 then none else objects ptr
  | _ => none

/-- Modelled from the spec: `LuaStack::shift(n)`, which removes the first `n`
slots of the frame. -/
def LuaStack.shift (stack : LuaStack) (n : Nat) : LuaStack :=
  { stack with slots := stack.slots.drop n }

/-- Modelled from the spec: `LuaStack::clear`, which empties the frame. -/
def LuaStack.clear (stack : LuaStack) : LuaStack := { stack with slots := [] }

/-- Modelled from the spec: `LuaStack::pushNil`. -/
def LuaStack.pushNil (stack : LuaStack) : LuaStack :=
  { stack with slots := stack.slots ++ [Value.nil] }

/-- Modelled from the spec: `stack << value` and `LuaStack::push(value)`. -/
def LuaStack.push (stack : LuaStack) (v : Value) : LuaStack :=
  { stack with slots := stack.slots ++ [v] }

/-- Modelled from the spec: `LuaStack::push(callable, nupvalues)` and
`lua::push(stack, callable, nupvalues)`: the callable adapter.  The top
`nupvalues` slots are taken off the frame, in push order, and bound into a new
closure, which is pushed in their place. -/
def LuaStack.pushClosure (stack : LuaStack) (fn : HostFunction) (nupvalues : Nat) : LuaStack :=
  let kept := stack.slots.length - nupvalues
  { slots := stack.slots.take kept ++ [Value.function stack.closures.length],
    closures := stack.closures ++ [{ fn := fn, upvalues := stack.slots.drop kept }] }

/-- Modelled from the spec: the frame an invocation of a closure presents to
its host callable: the bound upvalues first, then the guest-supplied
arguments. -/
def Closure.frame (c : Closure) (closures : List Closure) (guestArgs : List Value) : LuaStack :=
  { slots := c.upvalues ++ guestArgs, closures := closures }

/-- Modelled from the spec: `get<int>` of the marshaling registry: a number, or
a string the guest reads as a number. -/
def getInt (stack : LuaStack) (pos : Nat) : Except HostFailure Int :=
  match stack.slots.get? (pos - 1) with
  | some (Value.number n) => Except.ok n
  | some (Value.string str) =>
    match str.toInt? with
    | some n => Except.ok n
    | none => Except.error (HostFailure.runtime_error "TypeMismatch")
  | _ => Except.error (HostFailure.runtime_error "TypeMismatch")

/-! ## `Lua.cpp`: the raw callables -/

/-- The search loop of `callMethod`: the first index from `methodOffset()` up
to `methodCount()` whose signature starts with `name(`. -/
def callMethod_search (metaObject : QMetaObject) (name : String) : Option Nat :=
  (List.range' metaObject.methodOffset (metaObject.methodCount - metaObject.methodOffset)).find?
    (fun i => startsWith (metaObject.signature i) (name ++ "("))

/-- The function `callMethod`: the method name is at position 1 and the object
at position 2.  `metacall` is Qt's invocation of the method found, on the
converted arguments, answering the returned value if it is valid; what the
method does to the host objects is not followed.  A null object is
dereferenced by `obj->metaObject()`. -/
def callMethod (objects : Objects) (metacall : QObject → Nat → List Value → Option Value)
    (stack : LuaStack) : Except HostFailure LuaStack :=
  let name := (stack.cstring 1).getD ""
  match stack.object objects 2 with
  | none => Except.error HostFailure.null_dereference
  | some obj =>
    let stack := stack.shift 2
    let metaObject := obj.metaObject
    match callMethod_search metaObject name with
    | none => Except.error (HostFailure.cstring (some "No method found"))
    | some i =>
      let count := match metaObject.methods.get? i with
        | some method => method.parameterCount
        | none => 0
      let params := (List.range count).map (fun j => (stack.slots.get? j).getD Value.nil)
      match metacall obj i params with
      | some rvar => Except.ok (stack.push rvar)
      | none => Except.ok stack

/-- The search loop of `__index`: whether some index from `0` up to
`methodCount()` has a signature that starts with `name(`. -/
def __index_search (metaObject : QMetaObject) (name : String) : Bool :=
  (List.range metaObject.methodCount).any
    (fun i => startsWith (metaObject.signature i) (name ++ "("))

/-- The function `__index`, the metamethod of all light userdata: the object
is at position 1 and the name at position 2. -/
def __index (objects : Objects) (stack : LuaStack) : LuaStack :=
  match stack.object objects 1 with
  | none => stack.clear.pushNil
  | some obj =>
    match stack.cstring 2 with
    | none => stack.clear.pushNil
    | some name =>
      let stack := stack.clear
      match obj.property name with
      | some propValue => stack.push propValue
      | none =>
        if __index_search obj.metaObject name then
          (stack.push (Value.string name)).pushClosure HostFunction.callMethod 1
        else
          stack.pushNil

/-- `QObject::setProperty(name, value)`: the property reads back as the value
set; an invalid value, `nil` here, removes it. -/
def QObject.setProperty (obj : QObject) (name : String) (v : Value) : QObject :=
  { obj with
    properties :=
      if v = Value.nil then obj.properties.filter (fun p => p.1 ≠ name)
      else (name, v) :: obj.properties.filter (fun p => p.1 ≠ name) }

/-- Modelled from the spec: the host pointer `LuaStack::object(pos)` reads at a
position of the frame, null when the slot holds none. -/
def LuaStack.pointer (stack : LuaStack) (pos : Nat) : Nat :=
  match stack.slots.get? (pos - 1) with
  | some (Value.lightuserdata ptr) => if pos = 0 then 0 else ptr
  | _ => 0

/-- The function `__newindex`: the object is at position 1, the name at
position 2 and the value at position 3; it answers the frame and the host
objects after `setProperty`. -/
def __newindex (objects : Objects) (stack : LuaStack) : LuaStack × Objects :=
  match stack.object objects 1 with
  | none => (stack.clear.pushNil, objects)
  | some obj =>
    match stack.cstring 2 with
    | none => (stack.clear.pushNil, objects)
    | some name =>
      let v := (stack.slots.get? 2).getD Value.nil
      (stack, fun ptr => if ptr = stack.pointer 1 then some (obj.setProperty name v)
                         else objects ptr)

/-- Modelled from the spec: the invocation of a closure by the guest with the
given arguments, answering the frame it leaves and the host objects.  A typed
callable has its declared parameters unmarshaled from the first slots of the
frame and its result marshaled back. -/
def Closure.invoke (objects : Objects) (metacall : QObject → Nat → List Value → Option Value)
    (c : Closure) (closures : List Closure) (guestArgs : List Value) :
    Except HostFailure (LuaStack × Objects) :=
  let stack := c.frame closures guestArgs
  match c.fn with
  | HostFunction.callMethod =>
    match callMethod objects metacall stack with
    | Except.ok out => Except.ok (out, objects)
    | Except.error e => Except.error e
  | HostFunction.__index => Except.ok (__index objects stack, objects)
  | HostFunction.__newindex => Except.ok (__newindex objects stack)
  | HostFunction.binary f =>
    match getInt stack 1, getInt stack 2 with
    | Except.ok a, Except.ok b => Except.ok (stack.clear.push (Value.number (f a b)), objects)
    | Except.error e, _ => Except.error e
    | _, Except.error e => Except.error e

/-- The fatal-error hooks a VM can carry. -/
inductive PanicHook where
  | throwFromPanic
  deriving DecidableEq, Repr

/-- The VM as `Lua.cpp` drives it: the stack, the installed fatal-error hook
(none for the VM's default, which aborts) and the metatable shared by all
light userdata. -/
structure lua_State where
  stack : List Value
  panic : Option PanicHook
  lightuserdata_metatable : List (String × HostFunction)

/-- How a call into the bridge ends: it returns, it throws to its caller, or
the process aborts. -/
inductive Result where
  | returned (s : lua_State)
  | thrown (failure : HostFailure) (s : lua_State)
  | aborted

/-- `lua_tostring(state, -1)`. -/
def lua_tostring_top (state : lua_State) : Option String :=
  match state.stack.getLast? with
  | some v => tostring? v
  | none => none

/-- The function `throwFromPanic`: it reads the top of the stack as a C string
and throws it; the `int` it declares is never returned. -/
def throwFromPanic (state : lua_State) : Except HostFailure Int :=
  let msg := lua_tostring_top state
  Except.error (HostFailure.cstring msg)

/-- An error raised by the VM outside a protected call: the error value is
left on top of the stack and the fatal-error hook is called; the VM aborts if
there is no hook or if the hook returns. -/
def lua_error_unprotected (state : lua_State) (errorValue : Value) : Result :=
  let state := { state with stack := state.stack ++ [errorValue] }
  match state.panic with
  | none => Result.aborted
  | some PanicHook.throwFromPanic =>
    match throwFromPanic state with
    | Except.error failure => Result.thrown failure state
    | Except.ok _ => Result.aborted

/-- The guest side of `Lua.cpp`: the loader, which compiles a source text to a
function or reports a message, and the behaviour of the compiled functions,
which run to a new stack or raise an error value. -/
structure Guest where
  compile : String → Except String Nat
  run : Nat → List Value → Except Value (List Value)

/-- `luaL_loadstring` and `lua_load`: pushes the compiled chunk and answers
status `0`, or pushes the error message and answers a non-zero status.  The
readers `read_stream` and `read_qstream` hand the text over in pieces of
`CHUNKSIZE`; the loader is given the text they add up to. -/
def lua_load (guest : Guest) (state : lua_State) (source : String) : Int × lua_State :=
  match guest.compile source with
  | Except.ok f => (0, { state with stack := state.stack ++ [Value.function f] })
  | Except.error msg => (3, { state with stack := state.stack ++ [Value.string msg] })

/-- `lua_call(state, 0, 0)`: calls the value at the top of the stack without
arguments and drops its results; calling anything but a function is a VM
error. -/
def lua_call (guest : Guest) (state : lua_State) : Result :=
  let below := state.stack.dropLast
  match state.stack.getLast? with
  | some (Value.function f) =>
    match guest.run f below with
    | Except.ok stack => Result.returned { state with stack := stack }
    | Except.error e => lua_error_unprotected { state with stack := below } e
  | some v =>
    lua_error_unprotected state (Value.string ("attempt to call a " ++ v.type.name ++ " value"))
  | none =>
    lua_error_unprotected state (Value.string "attempt to call a nil value")

/-- The constructor `Lua::Lua`: a new state with the libraries opened, the
fatal-error hook set to `throwFromPanic`, and the metatable of light userdata
holding `__index` and `__newindex`. -/
def Lua.Lua : lua_State :=
  let state : lua_State := { stack := [], panic := none, lightuserdata_metatable := [] }
  let state := { state with panic := some PanicHook.throwFromPanic }
  { state with lightuserdata_metatable :=
      [("__index", HostFunction.__index), ("__newindex", HostFunction.__newindex)] }

/-- `Lua::operator()(const char*)`: loads the text and calls what the load
left on the stack; the status of the load is not looked at. -/
def Lua.call_cstr (guest : Guest) (state : lua_State) (runnable : String) : Result :=
  let (_, state) := lua_load guest state runnable
  lua_call guest state

/-- `Lua::operator()(const QString&)`: forwards the UTF-8 text. -/
def Lua.call_QString (guest : Guest) (state : lua_State) (runnable : String) : Result :=
  Lua.call_cstr guest state runnable

/-- `Lua::operator()(istream&, const string&)`: loads from the stream, throws
the VM's message when the load reports a non-zero status, calls otherwise. -/
def Lua.call_istream (guest : Guest) (state : lua_State) (stream : String) (_name : String) :
    Result :=
  let (status, state) := lua_load guest state stream
  if 0 ≠ status then
    Result.thrown (HostFailure.runtime_error ((lua_tostring_top state).getD "")) state
  else
    lua_call guest state

/-- `Lua::operator()(const string&)`: wraps the text in a stream. -/
def Lua.call_string (guest : Guest) (state : lua_State) (runnable : String) : Result :=
  Lua.call_istream guest state runnable "string input"

/-- A file as `Lua::operator()(QFile&)` uses it: its name, its content when it
can be opened, and its error text. -/
structure QFile where
  fileName : String
  content : Option String
  errorString : String

/-- `Lua::operator()(QFile&)`: throws when the file cannot be opened, then
loads and calls as the stream overload does. -/
def Lua.call_QFile (guest : Guest) (state : lua_State) (file : QFile) : Result :=
  match file.content with
  | none =>
    Result.thrown
      (HostFailure.runtime_error ("Cannot open file " ++ file.fileName ++ ": " ++ file.errorString))
      state
  | some text =>
    let (status, state) := lua_load guest state text
    if 0 ≠ status then
      Result.thrown (HostFailure.runtime_error ((lua_tostring_top state).getD "")) state
    else
      lua_call guest state

/-! ## Inputs for the examples -/

/-- A button-like host object: the four methods every `QObject` inherits, then
its own `clicked()`, and the `objectName` property. -/
def exampleObject : QObject :=
  { properties := [("objectName", Value.string "button")],
    metaObject :=
      { methods :=
          [{ signature := "destroyed(QObject*)", parameterCount := 1 },
           { signature := "destroyed()", parameterCount := 0 },
           { signature := "deleteLater()", parameterCount := 0 },
           { signature := "_q_reregisterTimers(void*)", parameterCount := 1 },
           { signature := "clicked()", parameterCount := 0 }],
        methodOffset := 4 } }

/-- The host objects of the examples: `exampleObject` at pointer 1. -/
def exampleObjects : Objects := fun ptr => if ptr = 1 then some exampleObject else none

/-- A `metacall` whose methods return nothing. -/
def exampleMetacall : QObject → Nat → List Value → Option Value := fun _ _ _ => none

/-- A guest whose loader rejects every text with a syntax error. -/
def rejectingGuest : Guest :=
  { compile := fun _ => Except.error "unexpected symbol near <eof>",
    run := fun _ stack => Except.ok stack }

/-! ## Tables: reading after writing -/

theorem take_succ_append {α : Type} (st rest : List α) (a : α) :
    List.take (st.length + 1) (st ++ a :: rest) = st ++ [a] := by
  induction st with
  | nil => simp
  | cons x xs ih => simpa using ih

theorem set_length_concat {α : Type} (st : List α) (a b : α) :
    List.set (st ++ [a]) st.length b = st ++ [b] := by
  induction st with
  | nil => simp
  | cons x xs ih => simp

namespace lua

/-! ## Stack positions -/

theorem slot_top (st : List Value) (h : Heap) (v : Value) :
    slot { stack := st ++ [v], heap := h } (Int.ofNat (st.length + 1)) = some v := by
  have h0 : (0 : Int) < Int.ofNat (st.length + 1) := by
    simp only [Int.ofNat_eq_coe]; omega
  simp [slot, h0]

theorem slot_below (st rest : List Value) (h : Heap) (v : Value) :
    slot { stack := st ++ v :: rest, heap := h } (Int.ofNat (st.length + 1)) = some v := by
  have h0 : (0 : Int) < Int.ofNat (st.length + 1) := by
    simp only [Int.ofNat_eq_coe]; omega
  simp [slot, h0]
  rw [List.getElem_append_right (le_refl _)]; simp

theorem slot_minus_one (st : List Value) (h : Heap) (v : Value) :
    slot { stack := st ++ [v], heap := h } (-1) = some v := by
  simp [slot, lua_gettop]

theorem slot_minus_two (st : List Value) (h : Heap) (k v : Value) :
    slot { stack := st ++ [k, v], heap := h } (-2) = some k := by
  have h1 : (2 : Int) ≤ Int.ofNat (st ++ [k, v]).length := by
    simp only [Int.ofNat_eq_coe, List.length_append, List.length_cons, List.length_nil]
    push_cast; omega
  have h2 : (2 : Int) ≤ (st.length : Int) + 1 + 1 := by omega
  simp [slot, lua_gettop, h2]
  rw [List.getElem_append_right (le_refl _)]; simp


/-! ## What the table operations compute -/

theorem pushed_type (st : List Value) (h : Heap) (v : Value) :
    index.type { stack := st ++ [v], heap := h } { pos := Int.ofNat (st.length + 1) } = v.type := by
  simp only [index.type, slot_top]

theorem table_set_ok (t : Source) (k v : Value) (s : state) (r : Nat)
    (ht : t s = Value.table r) (hk : k ≠ Value.nil) :
    table.set t k v s = Outcome.ok ()
      { stack := s.stack,
        heap := fun r' => if r' = r then Table.rawset (s.heap r) k v else s.heap r' } := by
  obtain ⟨st, h⟩ := s
  have e1 : slot { stack := st ++ [Value.table r] ++ [k] ++ [v], heap := h }
      (Int.ofNat (st.length + 1)) = some (Value.table r) := by
    have := slot_below st [k, v] h (Value.table r)
    simpa using this
  have e2 : slot { stack := st ++ [Value.table r] ++ [k] ++ [v], heap := h } (-2) = some k := by
    have := slot_minus_two (st ++ [Value.table r]) h k v
    simpa using this
  have e3 : slot { stack := st ++ [Value.table r] ++ [k] ++ [v], heap := h } (-1) = some v := by
    have := slot_minus_one (st ++ [Value.table r] ++ [k]) h v
    simpa using this
  simp only [table.set, push, assert_type, ht, pushed_type, Value.type, if_true, lua_settable,
    e1, e2, e3, if_neg hk, lua_pop, lua_settop, lua_gettop]
  have h4 : ((st.length : Int) + 1 + -2 + 1).toNat = st.length := by omega
  simp [h4, List.take_take]


theorem type_eq_table (v : Value) : v.type = LuaType.table ↔ ∃ r, v = Value.table r := by
  cases v <;> simp [Value.type]

theorem type_eq_function (v : Value) : v.type = LuaType.function ↔ ∃ f, v = Value.function f := by
  cases v <;> simp [Value.type]

theorem table_set_not_table (t : Source) (k v : Value) (s : state)
    (ht : (t s).type ≠ LuaType.table) :
    table.set t k v s = Outcome.thrown
      (assert_type_message "lua::table::set" LuaType.table (Int.ofNat (s.stack.length + 1))
        (t s).type)
      { stack := s.stack ++ [t s], heap := s.heap } := by
  obtain ⟨st, h⟩ := s
  simp only [table.set, push, assert_type, pushed_type, if_neg ht]

theorem table_set_nil_key (t : Source) (v : Value) (s : state) (r : Nat)
    (ht : t s = Value.table r) :
    table.set t Value.nil v s = Outcome.thrown "table index is nil"
      { stack := s.stack ++ [Value.table r] ++ [Value.nil] ++ [v], heap := s.heap } := by
  obtain ⟨st, h⟩ := s
  have e1 : slot { stack := st ++ [Value.table r] ++ [Value.nil] ++ [v], heap := h }
      (Int.ofNat (st.length + 1)) = some (Value.table r) := by
    have := slot_below st [Value.nil, v] h (Value.table r)
    simpa using this
  have e2 : slot { stack := st ++ [Value.table r] ++ [Value.nil] ++ [v], heap := h } (-2)
      = some Value.nil := by
    have := slot_minus_two (st ++ [Value.table r]) h Value.nil v
    simpa using this
  have e3 : slot { stack := st ++ [Value.table r] ++ [Value.nil] ++ [v], heap := h } (-1)
      = some v := by
    have := slot_minus_one (st ++ [Value.table r] ++ [Value.nil]) h v
    simpa using this
  simp only [table.set, push, assert_type, ht, pushed_type, Value.type, if_true, lua_settable,
    e1, e2, e3]

theorem table_insert_ok (t : Source) (v : Value) (s : state) (r : Nat)
    (ht : t s = Value.table r) :
    table.insert t v s = Outcome.ok ()
      { stack := s.stack,
        heap := fun r' =>
          if r' = r then
            Table.rawset (s.heap r) (Value.number (Int.ofNat (Table.len (s.heap r)) + 1)) v
          else s.heap r' } := by
  obtain ⟨st, h⟩ := s
  generalize hk : Value.number (Int.ofNat (Table.len (h r)) + 1) = k
  have hknil : k ≠ Value.nil := by rw [← hk]; simp
  have e0 : slot { stack := st ++ [Value.table r], heap := h } (Int.ofNat (st.length + 1))
      = some (Value.table r) := slot_top st h (Value.table r)
  have e1 : slot { stack := st ++ [Value.table r] ++ [k] ++ [v], heap := h }
      (Int.ofNat (st.length + 1)) = some (Value.table r) := by
    have := slot_below st [k, v] h (Value.table r)
    simpa using this
  have e2 : slot { stack := st ++ [Value.table r] ++ [k] ++ [v], heap := h } (-2) = some k := by
    have := slot_minus_two (st ++ [Value.table r]) h k v
    simpa using this
  have e3 : slot { stack := st ++ [Value.table r] ++ [k] ++ [v], heap := h } (-1) = some v := by
    have := slot_minus_one (st ++ [Value.table r] ++ [k]) h v
    simpa using this
  simp only [table.insert, push, assert_type, ht, pushed_type, Value.type, if_true,
    table.length, e0, hk, lua_settable, e1, e2, e3, if_neg hknil, lua_pop, lua_settop,
    lua_gettop]
  have h4 : ((st.length : Int) + 1 + -2 + 1).toNat = st.length := by omega
  simp [h4, List.take_take]

theorem table_insert_not_table (t : Source) (v : Value) (s : state)
    (ht : (t s).type ≠ LuaType.table) :
    table.insert t v s = Outcome.thrown
      (assert_type_message "lua::table::insert" LuaType.table (Int.ofNat (s.stack.length + 1))
        (t s).type)
      { stack := s.stack ++ [t s], heap := s.heap } := by
  obtain ⟨st, h⟩ := s
  simp only [table.insert, push, assert_type, pushed_type, if_neg ht]

theorem table_get_index_ok (t : Source) (k : Value) (s : state) (r : Nat)
    (ht : t s = Value.table r) :
    table.get_index t k s = Outcome.ok { pos := -1 }
      { stack := s.stack ++ [Table.rawget (s.heap r) k], heap := s.heap } := by
  obtain ⟨st, h⟩ := s
  have e1 : slot { stack := st ++ [Value.table r] ++ [k], heap := h }
      (Int.ofNat (st.length + 1)) = some (Value.table r) := by
    have := slot_below st [k] h (Value.table r)
    simpa using this
  have e2 : slot { stack := st ++ [Value.table r] ++ [k], heap := h } (-1) = some k :=
    slot_minus_one (st ++ [Value.table r]) h k
  simp only [table.get_index, push, assert_type, ht, pushed_type, Value.type, if_true,
    lua_gettable, e1, e2, lua_replace]
  have e3 : List.take ((st ++ [Value.table r] ++ [k]).length - 1) (st ++ [Value.table r] ++ [k])
      = st ++ [Value.table r] := by
    simp [take_succ_append]
  simp only [e3, slot_minus_one]
  simp [take_succ_append, set_length_concat]

theorem table_get_index_not_table (t : Source) (k : Value) (s : state)
    (ht : (t s).type ≠ LuaType.table) :
    table.get_index t k s = Outcome.thrown
      (assert_type_message "lua::table::get" LuaType.table (Int.ofNat (s.stack.length + 1))
        (t s).type)
      { stack := s.stack ++ [t s], heap := s.heap } := by
  obtain ⟨st, h⟩ := s
  simp only [table.get_index, push, assert_type, pushed_type, if_neg ht]


theorem table_get_table {α : Type} (conv : Value → Except String α) (t : Source) (k : Value)
    (s : state) (r : Nat) (ht : t s = Value.table r) :
    table.get conv t k s =
      match conv (Table.rawget (s.heap r) k) with
      | Except.ok rv => Outcome.ok rv s
      | Except.error msg =>
        Outcome.thrown msg { stack := s.stack ++ [Table.rawget (s.heap r) k], heap := s.heap } := by
  obtain ⟨st, h⟩ := s
  have e1 : slot { stack := st ++ [Value.table r] ++ [k], heap := h }
      (Int.ofNat (st.length + 1)) = some (Value.table r) := by
    have := slot_below st [k] h (Value.table r)
    simpa using this
  have e2 : slot { stack := st ++ [Value.table r] ++ [k], heap := h } (-1) = some k :=
    slot_minus_one (st ++ [Value.table r]) h k
  have e3 : List.take ((st ++ [Value.table r] ++ [k]).length - 1) (st ++ [Value.table r] ++ [k])
      = st ++ [Value.table r] := by
    simp [take_succ_append]
  have e4 : (Int.ofNat (st.length + 1)).toNat - 1 = st.length := by simp
  have e5 : List.take ((st ++ [Value.table r] ++ [Table.rawget (h r) k]).length - 1)
      (st ++ [Value.table r] ++ [Table.rawget (h r) k]) = st ++ [Value.table r] := by
    simp [take_succ_append]
  have h4 : ((st.length : Int) + 1 + -2 + 1).toNat = st.length := by omega
  simp only [table.get, push, assert_type, ht, pushed_type, Value.type, if_true,
    lua_gettable, e1, e2, lua_replace, e3, slot_minus_one, e4, e5, set_length_concat, lua.get,
    Option.getD_some]
  cases conv (Table.rawget (h r) k) with
  | error msg => rfl
  | ok rv => simp [lua_pop, lua_settop, lua_gettop, h4]

theorem table_get_not_table {α : Type} (conv : Value → Except String α) (t : Source)
    (k : Value) (s : state) (ht : (t s).type ≠ LuaType.table) :
    table.get conv t k s = Outcome.thrown
      (assert_type_message "lua::table::get" LuaType.table (Int.ofNat (s.stack.length + 1))
        (t s).type)
      { stack := s.stack ++ [t s], heap := s.heap } := by
  obtain ⟨st, h⟩ := s
  simp only [table.get, push, assert_type, pushed_type, if_neg ht]

theorem table_get_type_table (t : Source) (k : Value) (s : state) (r : Nat)
    (ht : t s = Value.table r) :
    table.get_type t k s = Outcome.ok (Table.rawget (s.heap r) k).type s := by
  obtain ⟨st, h⟩ := s
  have h4 : ((st.length : Int) + 1 + -2 + 1).toNat = st.length := by omega
  simp only [table.get_type, table_get_index_ok t k _ r ht, index.type, slot_minus_one]
  simp [lua_pop, lua_settop, lua_gettop, h4]

theorem table_get_type_not_table (t : Source) (k : Value) (s : state)
    (ht : (t s).type ≠ LuaType.table) :
    table.get_type t k s = Outcome.thrown
      (assert_type_message "lua::table::get" LuaType.table (Int.ofNat (s.stack.length + 1))
        (t s).type)
      { stack := s.stack ++ [t s], heap := s.heap } := by
  simp only [table.get_type, table_get_index_not_table t k s ht]

theorem size_post (reference : Source) (s : state) (rv : Int) (s1 : state)
    (hs : size reference s = Outcome.ok rv s1) : s1 = s := by
  obtain ⟨st, h⟩ := s
  have h4 : ((st.length : Int) + 1 + -2 + 1).toNat = st.length := by omega
  simp only [size, push] at hs
  cases hsz : size_index { stack := st ++ [reference { stack := st, heap := h }], heap := h }
      { pos := Int.ofNat (st.length + 1) } with
  | error msg => rw [hsz] at hs; cases hs
  | ok n =>
    rw [hsz] at hs
    injection hs with _ h2
    rw [← h2]
    simp [lua_pop, lua_settop, lua_gettop, h4]


/-! ## What the calls compute -/

theorem invoke_pushed (fns : Functions) (st args : List Value) (h : Heap) (f : Nat) :
    invoke fns { stack := st ++ [Value.function f] ++ args, heap := h }
        { pos := Int.ofNat (st.length + 1) } =
      match fns f args h with
      | (Except.ok results, h1) => Outcome.ok () { stack := st ++ results, heap := h1 }
      | (Except.error msg, h1) => Outcome.thrown msg { stack := st, heap := h1 } := by
  have e1 : slot { stack := st ++ [Value.function f] ++ args, heap := h }
      (Int.ofNat (st.length + 1)) = some (Value.function f) := by
    have := slot_below st args h (Value.function f)
    simpa using this
  have e2 : (Int.ofNat (st.length + 1)).toNat = st.length + 1 := by simp
  have e3 : List.drop (st.length + 1) (st ++ [Value.function f] ++ args) = args := by
    simp
  simp only [invoke, e1, e2, e3]
  simp

theorem call_function {RV : Type} (conv : Value → Except String RV) (fns : Functions)
    (source : Source) (args : List Value) (s : state) (f : Nat)
    (hf : source s = Value.function f) :
    call conv fns source args s =
      match fns f args s.heap with
      | (Except.error msg, h1) => Outcome.thrown msg { stack := s.stack, heap := h1 }
      | (Except.ok [], h1) =>
        Outcome.thrown "Lua callable did not return a value" { stack := s.stack, heap := h1 }
      | (Except.ok (r :: _), h1) =>
        match conv r with
        | Except.ok rv => Outcome.ok rv { stack := s.stack ++ [r], heap := h1 }
        | Except.error msg => Outcome.thrown msg { stack := s.stack ++ [r], heap := h1 } := by
  obtain ⟨st, h⟩ := s
  simp only [call, push, push_all, assert_type, hf, pushed_type, Value.type, if_true,
    invoke_pushed]
  rcases hres : fns f args h with ⟨res, h1⟩
  cases res with
  | error msg => rfl
  | ok results =>
    cases results with
    | nil => simp [lua_gettop]
    | cons r rest =>
      have hlt : ¬ (lua_gettop { stack := st ++ r :: rest, heap := h1 }
          < Int.ofNat (st.length + 1)) := by
        simp only [lua_gettop, List.length_append, List.length_cons, Int.ofNat_eq_coe]
        push_cast
        omega
      have e2 : (Int.ofNat (st.length + 1)).toNat = st.length + 1 := by simp
      have e0 : (0 : Int) ≤ Int.ofNat (st.length + 1) := by
        simp only [Int.ofNat_eq_coe]; omega
      have e4 : lua_settop { stack := st ++ r :: rest, heap := h1 } (Int.ofNat (st.length + 1))
          = { stack := st ++ [r], heap := h1 } := by
        simp only [lua_settop, e0, if_true, e2, take_succ_append]
        simp
      simp only [if_neg hlt, e4, lua.get, slot_top, Option.getD_some]
      cases conv r <;> rfl

theorem call_not_function {RV : Type} (conv : Value → Except String RV) (fns : Functions)
    (source : Source) (args : List Value) (s : state)
    (hf : (source s).type ≠ LuaType.function) :
    call conv fns source args s = Outcome.thrown
      (assert_type_message "lua::call" LuaType.function (Int.ofNat (s.stack.length + 1))
        (source s).type)
      { stack := s.stack ++ [source s], heap := s.heap } := by
  obtain ⟨st, h⟩ := s
  simp only [call, push, assert_type, pushed_type, if_neg hf]

theorem call_void_function (fns : Functions) (source : Source) (args : List Value) (s : state)
    (f : Nat) (hf : source s = Value.function f) :
    call_void fns source args s =
      match fns f args s.heap with
      | (Except.error msg, h1) => Outcome.thrown msg { stack := s.stack, heap := h1 }
      | (Except.ok _, h1) => Outcome.ok () { stack := s.stack, heap := h1 } := by
  obtain ⟨st, h⟩ := s
  simp only [call_void, push, push_all, assert_type, hf, pushed_type, Value.type, if_true,
    invoke_pushed]
  rcases hres : fns f args h with ⟨res, h1⟩
  cases res with
  | error msg => rfl
  | ok results =>
    have e0 : (0 : Int) ≤ Int.ofNat (st.length + 1) - 1 := by
      simp only [Int.ofNat_eq_coe]; omega
    have e2 : (Int.ofNat (st.length + 1) - 1).toNat = st.length := by
      simp only [Int.ofNat_eq_coe]; omega
    simp [lua_settop, e0, e2]

theorem call_void_not_function (fns : Functions) (source : Source) (args : List Value)
    (s : state) (hf : (source s).type ≠ LuaType.function) :
    call_void fns source args s = Outcome.thrown
      (assert_type_message "lua::call" LuaType.function (Int.ofNat (s.stack.length + 1))
        (source s).type)
      { stack := s.stack ++ [source s], heap := s.heap } := by
  obtain ⟨st, h⟩ := s
  simp only [call_void, push, assert_type, pushed_type, if_neg hf]


/-! ## The type assertion -/

theorem infix_middle (a b c : List Char) : List.IsInfix b (a ++ b ++ c) :=
  ⟨a, c, rfl⟩

/-- C1: `assert_type` returns normally exactly when the kind of the given
slot equals the expected kind; otherwise it throws the error whose message is
the category, the position of the slot, the name of the expected kind and the
name of the actual kind, joined by the fixed words, so that the message
contains each of the four. -/
theorem assert_type_contract (s : state) (category : String) (expected : LuaType)
    (given : index) :
    (assert_type s category expected given = Except.ok () ↔ index.type s given = expected) ∧
    (index.type s given ≠ expected →
      ∃ msg, assert_type s category expected given = Except.error msg ∧
        msg = category ++ ": Lua stack value at index " ++ toString given.pos ++ " must be a "
          ++ expected.name ++ " but a " ++ (index.type s given).name ++ " was given instead." ∧
        List.IsInfix category.data msg.data ∧
        List.IsInfix (toString given.pos).data msg.data ∧
        List.IsInfix expected.name.data msg.data ∧
        List.IsInfix (index.type s given).name.data msg.data) := by
  constructor
  · by_cases h : index.type s given = expected
    · simp [assert_type, h]
    · simp [assert_type, h]
  · intro h
    refine ⟨assert_type_message category expected given.pos (index.type s given),
      by simp only [assert_type, if_neg h], ?_, ?_, ?_, ?_, ?_⟩
    · simp only [assert_type_message, String.append_assoc]
      rfl
    · have hm : (assert_type_message category expected given.pos (index.type s given)).data
          = [] ++ category.data ++ (": Lua stack value at index ".data
            ++ (toString given.pos).data ++ " must be a ".data ++ expected.name.data
            ++ " but a ".data ++ (index.type s given).name.data
            ++ " was given instead.".data) := by
        simp [assert_type_message, String.data_append, List.append_assoc]
      rw [hm]; exact infix_middle _ _ _
    · have hm : (assert_type_message category expected given.pos (index.type s given)).data
          = (category.data ++ ": Lua stack value at index ".data)
            ++ (toString given.pos).data ++ (" must be a ".data ++ expected.name.data
            ++ " but a ".data ++ (index.type s given).name.data
            ++ " was given instead.".data) := by
        simp [assert_type_message, String.data_append, List.append_assoc]
      rw [hm]; exact infix_middle _ _ _
    · have hm : (assert_type_message category expected given.pos (index.type s given)).data
          = (category.data ++ ": Lua stack value at index ".data
            ++ (toString given.pos).data ++ " must be a ".data) ++ expected.name.data
            ++ (" but a ".data ++ (index.type s given).name.data
            ++ " was given instead.".data) := by
        simp [assert_type_message, String.data_append, List.append_assoc]
      rw [hm]; exact infix_middle _ _ _
    · have hm : (assert_type_message category expected given.pos (index.type s given)).data
          = (category.data ++ ": Lua stack value at index ".data
            ++ (toString given.pos).data ++ " must be a ".data ++ expected.name.data
            ++ " but a ".data) ++ (index.type s given).name.data
            ++ " was given instead.".data := by
        simp [assert_type_message, String.data_append, List.append_assoc]
      rw [hm]; exact infix_middle _ _ _

/-- A number at position 1 where a table is expected: the assertion throws. -/
theorem assert_type_contract_witness :
    ∃ msg, assert_type { stack := [Value.number 7], heap := fun _ => [] } "lua::table::set"
        LuaType.table { pos := 1 } = Except.error msg ∧
      msg = "lua::table::set" ++ ": Lua stack value at index " ++ toString (1 : Int)
          ++ " must be a " ++ LuaType.table.name ++ " but a "
          ++ (index.type { stack := [Value.number 7], heap := fun _ => [] } { pos := 1 }).name
          ++ " was given instead." ∧
      List.IsInfix "lua::table::set".data msg.data ∧
      List.IsInfix (toString (1 : Int)).data msg.data ∧
      List.IsInfix LuaType.table.name.data msg.data ∧
      List.IsInfix
        (index.type { stack := [Value.number 7], heap := fun _ => [] } { pos := 1 }).name.data
        msg.data :=
  (assert_type_contract { stack := [Value.number 7], heap := fun _ => [] } "lua::table::set"
    LuaType.table { pos := 1 }).2 (by decide)

/-! ## Tables through proxies -/

/-- C3: when the source does not resolve to a table, `lua::table::set` and
`lua::setfield` throw the type error of `assert_type` and write nothing: the
heap of tables, the globals among them, is the one found, and the stack holds
what it held with the pushed source on top. -/
theorem set_on_non_table_writes_nothing (source : Source) (key value : Value) (s : state)
    (h : (source s).type ≠ LuaType.table) :
    (∃ s1, table.set source key value s = Outcome.thrown
        (assert_type_message "lua::table::set" LuaType.table (Int.ofNat (s.stack.length + 1))
          (source s).type) s1 ∧
      s1.heap = s.heap ∧ s1.stack = s.stack ++ [source s]) ∧
    (∃ s1, setfield source key value s = Outcome.thrown
        (assert_type_message "lua::table::set" LuaType.table (Int.ofNat (s.stack.length + 1))
          (source s).type) s1 ∧
      s1.heap = s.heap ∧ s1.stack = s.stack ++ [source s]) := by
  constructor
  · exact ⟨_, table_set_not_table source key value s h, rfl, rfl⟩
  · exact ⟨_, table_set_not_table source key value s h, rfl, rfl⟩

/-- Assigning into a missing intermediate table: the source resolves to
`nil`. -/
theorem set_on_non_table_writes_nothing_witness :
    (∃ s1, table.set (fun _ => Value.nil) (Value.number 1) (Value.number 42)
        { stack := [], heap := fun _ => [] } = Outcome.thrown
        (assert_type_message "lua::table::set" LuaType.table (Int.ofNat (0 + 1)) LuaType.nil) s1 ∧
      s1.heap = (fun _ => []) ∧ s1.stack = [] ++ [Value.nil]) ∧
    (∃ s1, setfield (fun _ => Value.nil) (Value.number 1) (Value.number 42)
        { stack := [], heap := fun _ => [] } = Outcome.thrown
        (assert_type_message "lua::table::set" LuaType.table (Int.ofNat (0 + 1)) LuaType.nil) s1 ∧
      s1.heap = (fun _ => []) ∧ s1.stack = [] ++ [Value.nil]) :=
  set_on_non_table_writes_nothing (fun _ => Value.nil) (Value.number 1) (Value.number 42)
    { stack := [], heap := fun _ => [] } (by decide)


/-! ## Calls into the guest -/

/-- C4: when the source resolves to a function that returns at least one value,
the typed `lua::call<RV>` answers the conversion to `RV` of the first returned
value and drops the others: the stack it leaves is the original one with the
first returned value on top, at the position the callable was pushed at. -/
theorem call_returns_first_value {RV : Type} (conv : Value → Except String RV)
    (fns : Functions) (source : Source) (args : List Value) (s : state) (f : Nat)
    (r : Value) (rest : List Value) (h1 : Heap)
    (hf : source s = Value.function f)
    (hres : fns f args s.heap = (Except.ok (r :: rest), h1)) :
    call conv fns source args s =
        (match conv r with
          | Except.ok rv => Outcome.ok rv { stack := s.stack ++ [r], heap := h1 }
          | Except.error msg => Outcome.thrown msg { stack := s.stack ++ [r], heap := h1 }) ∧
      slot { stack := s.stack ++ [r], heap := h1 } (push s (source s)).2.pos = some r := by
  constructor
  · rw [call_function conv fns source args s f hf, hres]
  · exact slot_top s.stack h1 r

/-- A function that returns `false` and then `true`: the call answers
`false`. -/
theorem call_returns_first_value_witness :
    call (fun x => match x with
          | Value.boolean b => Except.ok b
          | _ => Except.error "not a boolean")
        (fun _ _ h => (Except.ok [Value.boolean false, Value.boolean true], h))
        (fun _ => Value.function 0) [] { stack := [], heap := fun _ => [] } =
        (match (fun x => match x with
            | Value.boolean b => Except.ok b
            | _ => Except.error "not a boolean") (Value.boolean false) with
          | Except.ok rv => Outcome.ok rv { stack := [] ++ [Value.boolean false], heap := fun _ => [] }
          | Except.error msg =>
            Outcome.thrown msg { stack := [] ++ [Value.boolean false], heap := fun _ => [] }) ∧
      slot { stack := [] ++ [Value.boolean false], heap := fun _ => [] }
        (push { stack := [], heap := fun _ => [] } (Value.function 0)).2.pos
        = some (Value.boolean false) :=
  call_returns_first_value _ (fun _ _ h => (Except.ok [Value.boolean false, Value.boolean true], h))
    (fun _ => Value.function 0) [] { stack := [], heap := fun _ => [] } 0 (Value.boolean false)
    [Value.boolean true] (fun _ => []) rfl rfl

/-- C5: when the source resolves to a function that returns normally, the
typed `lua::call<RV>` throws "Lua callable did not return a value" exactly when
the function returned no value, which is exactly when the top of the stack
after the invocation is below the position of the callable; it then answers no
`RV` at all.  The conversion is taken not to raise that same message. -/
theorem call_without_return_value {RV : Type} (conv : Value → Except String RV)
    (fns : Functions) (source : Source) (args : List Value) (s : state) (f : Nat)
    (results : List Value) (h1 : Heap)
    (hf : source s = Value.function f)
    (hres : fns f args s.heap = (Except.ok results, h1))
    (hconv : ∀ v, conv v ≠ Except.error "Lua callable did not return a value") :
    (results = [] →
      call conv fns source args s =
        Outcome.thrown "Lua callable did not return a value" { stack := s.stack, heap := h1 }) ∧
    ((∃ s1, call conv fns source args s
        = Outcome.thrown "Lua callable did not return a value" s1) ↔ results = []) ∧
    (results = [] ↔
      lua_gettop (invoke fns (push_all (push s (source s)).1 args) (push s (source s)).2).post
        < (push s (source s)).2.pos) := by
  have hcall := call_function conv fns source args s f hf
  rw [hres] at hcall
  refine ⟨?_, ?_, ?_⟩
  · intro hr
    subst hr
    exact hcall
  · constructor
    · rintro ⟨s1, hs1⟩
      cases results with
      | nil => rfl
      | cons r rest =>
        exfalso
        rw [hcall] at hs1
        cases hc : conv r with
        | ok rv => simp only [hc] at hs1; cases hs1
        | error msg =>
          simp only [hc] at hs1
          injection hs1 with hmsg _
          exact hconv r (by rw [hc, hmsg])
    · intro hr
      subst hr
      exact ⟨_, hcall⟩
  · obtain ⟨st, h⟩ := s
    simp only [push, push_all, hf, invoke_pushed]
    simp only at hres
    rw [hres]
    simp only [Outcome.post, lua_gettop, List.length_append, Int.ofNat_eq_coe]
    push_cast
    constructor
    · intro hr; subst hr; simp
    · intro hlt
      have : results.length = 0 := by omega
      exact List.length_eq_zero.mp this

/-- A function that returns nothing: the typed call throws. -/
theorem call_without_return_value_witness :
    call (fun x => Except.ok x) (fun _ _ h => (Except.ok [], h)) (fun _ => Value.function 0)
        [Value.number 3] { stack := [Value.number 7], heap := fun _ => [] } =
      Outcome.thrown "Lua callable did not return a value"
        { stack := [Value.number 7], heap := fun _ => [] } :=
  (call_without_return_value (fun x => Except.ok x) (fun _ _ h => (Except.ok [], h))
    (fun _ => Value.function 0) [Value.number 3]
    { stack := [Value.number 7], heap := fun _ => [] } 0 [] (fun _ => []) rfl rfl
    (fun _ hv => by cases hv)).1 rfl

/-! ## Stack balance -/

/-- C9: with every push of a source, key or value taking one slot, each
successful `lua::table::set`, `lua::table::insert`, `lua::table::get<Value>`,
`lua::table::get_type`, `lua::size(reference)` and void `lua::call` leaves the
stack it found: the same height and the same slots, whatever the callable
returned. -/
theorem stack_balance {α : Type} (conv : Value → Except String α) (fns : Functions)
    (source : Source) (key value : Value) (args : List Value) (s : state) :
    (∀ s1, table.set source key value s = Outcome.ok () s1 → s1.stack = s.stack) ∧
    (∀ s1, table.insert source value s = Outcome.ok () s1 → s1.stack = s.stack) ∧
    (∀ rv s1, table.get conv source key s = Outcome.ok rv s1 → s1.stack = s.stack) ∧
    (∀ ty s1, table.get_type source key s = Outcome.ok ty s1 → s1.stack = s.stack) ∧
    (∀ n s1, size source s = Outcome.ok n s1 → s1.stack = s.stack) ∧
    (∀ s1, call_void fns source args s = Outcome.ok () s1 → s1.stack = s.stack) := by
  refine ⟨?_, ?_, ?_, ?_, ?_, ?_⟩
  · intro s1 hs
    by_cases ht : (source s).type = LuaType.table
    · obtain ⟨r, hr⟩ := (type_eq_table _).mp ht
      by_cases hk : key = Value.nil
      · subst hk
        rw [table_set_nil_key source value s r hr] at hs
        cases hs
      · rw [table_set_ok source key value s r hr hk] at hs
        injection hs with _ h2
        rw [← h2]
    · rw [table_set_not_table source key value s ht] at hs
      cases hs
  · intro s1 hs
    by_cases ht : (source s).type = LuaType.table
    · obtain ⟨r, hr⟩ := (type_eq_table _).mp ht
      rw [table_insert_ok source value s r hr] at hs
      injection hs with _ h2
      rw [← h2]
    · rw [table_insert_not_table source value s ht] at hs
      cases hs
  · intro rv s1 hs
    by_cases ht : (source s).type = LuaType.table
    · obtain ⟨r, hr⟩ := (type_eq_table _).mp ht
      rw [table_get_table conv source key s r hr] at hs
      cases hc : conv (Table.rawget (s.heap r) key) with
      | error msg => rw [hc] at hs; cases hs
      | ok v =>
        rw [hc] at hs
        injection hs with _ h2
        rw [← h2]
    · rw [table_get_not_table conv source key s ht] at hs
      cases hs
  · intro ty s1 hs
    by_cases ht : (source s).type = LuaType.table
    · obtain ⟨r, hr⟩ := (type_eq_table _).mp ht
      rw [table_get_type_table source key s r hr] at hs
      injection hs with _ h2
      rw [← h2]
    · rw [table_get_type_not_table source key s ht] at hs
      cases hs
  · intro n s1 hs
    rw [size_post source s n s1 hs]
  · intro s1 hs
    by_cases ht : (source s).type = LuaType.function
    · obtain ⟨f, hf⟩ := (type_eq_function _).mp ht
      rw [call_void_function fns source args s f hf] at hs
      rcases hres : fns f args s.heap with ⟨res, h1⟩
      rw [hres] at hs
      cases res with
      | error msg => cases hs
      | ok results =>
        injection hs with _ h2
        rw [← h2]
    · rw [call_void_not_function fns source args s ht] at hs
      cases hs


/-- The six operations on a stack holding one number: a table source for the
table operations and the size, a function that returns two values for the
void call. -/
theorem stack_balance_witness :
    (∃ s1, table.set (fun _ => Value.table 0) (Value.number 1) (Value.number 42)
        { stack := [Value.number 7], heap := fun _ => [] } = Outcome.ok () s1 ∧
      s1.stack = [Value.number 7]) ∧
    (∃ s1, table.insert (fun _ => Value.table 0) (Value.number 42)
        { stack := [Value.number 7], heap := fun _ => [] } = Outcome.ok () s1 ∧
      s1.stack = [Value.number 7]) ∧
    (∃ rv s1, table.get (fun x => Except.ok x) (fun _ => Value.table 0) (Value.number 1)
        { stack := [Value.number 7], heap := fun _ => [] } = Outcome.ok rv s1 ∧
      s1.stack = [Value.number 7]) ∧
    (∃ ty s1, table.get_type (fun _ => Value.table 0) (Value.number 1)
        { stack := [Value.number 7], heap := fun _ => [] } = Outcome.ok ty s1 ∧
      s1.stack = [Value.number 7]) ∧
    (∃ n s1, size (fun _ => Value.table 0)
        { stack := [Value.number 7], heap := fun _ => [] } = Outcome.ok n s1 ∧
      s1.stack = [Value.number 7]) ∧
    (∃ s1, call_void (fun _ a h => (Except.ok (a ++ a), h)) (fun _ => Value.function 0)
        [Value.number 3] { stack := [Value.number 7], heap := fun _ => [] } = Outcome.ok () s1 ∧
      s1.stack = [Value.number 7]) :=
  ⟨⟨_, table_set_ok _ _ _ _ 0 rfl (by decide),
      (stack_balance (fun x => Except.ok x) (fun _ a h => (Except.ok (a ++ a), h))
        (fun _ => Value.table 0) (Value.number 1) (Value.number 42) [Value.number 3]
        { stack := [Value.number 7], heap := fun _ => [] }).1 _
        (table_set_ok _ _ _ _ 0 rfl (by decide))⟩,
    ⟨_, table_insert_ok _ _ _ 0 rfl,
      (stack_balance (fun x => Except.ok x) (fun _ a h => (Except.ok (a ++ a), h))
        (fun _ => Value.table 0) (Value.number 1) (Value.number 42) [Value.number 3]
        { stack := [Value.number 7], heap := fun _ => [] }).2.1 _
        (table_insert_ok _ _ _ 0 rfl)⟩,
    ⟨_, _, table_get_table _ _ _ _ 0 rfl,
      (stack_balance (fun x => Except.ok x) (fun _ a h => (Except.ok (a ++ a), h))
        (fun _ => Value.table 0) (Value.number 1) (Value.number 42) [Value.number 3]
        { stack := [Value.number 7], heap := fun _ => [] }).2.2.1 _ _
        (table_get_table _ _ _ _ 0 rfl)⟩,
    ⟨_, _, table_get_type_table _ _ _ 0 rfl,
      (stack_balance (fun x => Except.ok x) (fun _ a h => (Except.ok (a ++ a), h))
        (fun _ => Value.table 0) (Value.number 1) (Value.number 42) [Value.number 3]
        { stack := [Value.number 7], heap := fun _ => [] }).2.2.2.1 _ _
        (table_get_type_table _ _ _ 0 rfl)⟩,
    ⟨0, { stack := [Value.number 7], heap := fun _ => [] }, rfl,
      (stack_balance (fun x => Except.ok x) (fun _ a h => (Except.ok (a ++ a), h))
        (fun _ => Value.table 0) (Value.number 1) (Value.number 42) [Value.number 3]
        { stack := [Value.number 7], heap := fun _ => [] }).2.2.2.2.1 0
        { stack := [Value.number 7], heap := fun _ => [] } rfl⟩,
    ⟨_, call_void_function _ _ _ _ 0 rfl,
      (stack_balance (fun x => Except.ok x) (fun _ a h => (Except.ok (a ++ a), h))
        (fun _ => Value.function 0) (Value.number 1) (Value.number 42) [Value.number 3]
        { stack := [Value.number 7], heap := fun _ => [] }).2.2.2.2.2 _
        (call_void_function _ _ _ _ 0 rfl)⟩⟩

end lua

/-! ## Closures and their upvalues -/

/-- The stream, string and file overloads of `Lua::operator()` look at the
status of the load: a chunk that fails to load is thrown to the caller as a
`runtime_error` with the VM's message, and nothing is called. -/
theorem load_failure_thrown_by_checked_overloads (guest : Guest) (state : lua_State)
    (text name msg : String) (file : QFile)
    (hload : guest.compile text = Except.error msg) (hfile : file.content = some text) :
    Lua.call_istream guest state text name =
        Result.thrown (HostFailure.runtime_error msg)
          { state with stack := state.stack ++ [Value.string msg] } ∧
      Lua.call_string guest state text =
        Result.thrown (HostFailure.runtime_error msg)
          { state with stack := state.stack ++ [Value.string msg] } ∧
      Lua.call_QFile guest state file =
        Result.thrown (HostFailure.runtime_error msg)
          { state with stack := state.stack ++ [Value.string msg] } := by
  refine ⟨?_, ?_, ?_⟩
  · simp [Lua.call_istream, lua_load, hload, lua_tostring_top, tostring?]
  · simp [Lua.call_string, Lua.call_istream, lua_load, hload, lua_tostring_top, tostring?]
  · simp [Lua.call_QFile, hfile, lua_load, hload, lua_tostring_top, tostring?]

/-- C8 at a text the loader rejects: the `const char*` and `QString` overloads
do not look at the status of the load; they call the error message the load
left on the stack, and what reaches the caller is the C string of the VM's
call error, thrown by the panic hook, not the load error; the stream overload
on the same text throws the load error. -/
theorem load_failure_not_surfaced_by_cstr_overload :
    Lua.call_cstr rejectingGuest Lua.Lua "x =" =
        Result.thrown (HostFailure.cstring (some "attempt to call a string value"))
          { Lua.Lua with stack := [Value.string "unexpected symbol near <eof>",
                                   Value.string "attempt to call a string value"] } ∧
      Lua.call_QString rejectingGuest Lua.Lua "x =" =
        Result.thrown (HostFailure.cstring (some "attempt to call a string value"))
          { Lua.Lua with stack := [Value.string "unexpected symbol near <eof>",
                                   Value.string "attempt to call a string value"] } ∧
      Lua.call_istream rejectingGuest Lua.Lua "x =" "chunk" =
        Result.thrown (HostFailure.runtime_error "unexpected symbol near <eof>")
          { Lua.Lua with stack := [Value.string "unexpected symbol near <eof>"] } := by
  exact ⟨rfl, rfl, rfl⟩

/-! ## Method lookup -/

/-- Every name `callMethod` resolves is a name `__index` offers as a method,
when the name is no property. -/
theorem callMethod_search_within_index_search (metaObject : QMetaObject) (name : String)
    (i : Nat) (h : callMethod_search metaObject name = some i) :
    __index_search metaObject name = true := by
  unfold callMethod_search at h
  have hp := List.find?_some h
  have hm := List.mem_of_find?_eq_some h
  rw [List.mem_range'_1] at hm
  unfold __index_search
  rw [List.any_eq_true]
  refine ⟨i, ?_, hp⟩
  rw [List.mem_range]
  unfold QMetaObject.methodCount at *
  omega

/-- C10 at an inherited method: for `deleteLater` on the example object
`__index` answers with a closure of `callMethod` bound to the name, and the
invocation of that closure on the object ends in "No method found": the
search of `__index` starts at method 0, the search of `callMethod` at
`methodOffset()`. -/
theorem index_offers_method_callMethod_rejects :
    (__index exampleObjects
        { slots := [Value.lightuserdata 1, Value.string "deleteLater"], closures := [] }).slots
      = [Value.function 0] ∧
    (∃ c, (__index exampleObjects
        { slots := [Value.lightuserdata 1, Value.string "deleteLater"], closures := [] }).closures.get? 0
        = some c ∧
      c.fn = HostFunction.callMethod ∧ c.upvalues = [Value.string "deleteLater"] ∧
      c.invoke exampleObjects exampleMetacall [c] [Value.lightuserdata 1]
        = Except.error (HostFailure.cstring (some "No method found"))) ∧
    __index_search exampleObject.metaObject "deleteLater" = true ∧
    callMethod_search exampleObject.metaObject "deleteLater" = none := by
  refine ⟨by decide, ⟨Closure.mk HostFunction.callMethod [Value.string "deleteLater"], ?_, rfl,
    rfl, ?_⟩, by decide, by decide⟩
  · rfl
  · rfl
